import Mathlib

/-!
Shallow embedding of the `ping` probe engine (`src/ping.rs`, `src/main.rs`).

Byte buffers are `List Nat` (each entry one byte); machine integers are `Nat`
with explicit `% 2^w` where the source truncates.  The `pnet` checksum helper
`util::checksum` / `util::sum_be_words` is embedded faithfully: 16-bit
big-endian words, the word at index `skipword` skipped, a trailing odd byte
taken as the high byte of a final word, the 32-bit accumulator folded until it
fits 16 bits and then complemented.
-/

namespace Ping

/-- Constant `PACKET_DATA_SIZE` from `src/ping.rs`: size of the reusable
packet buffer allocated by `start_pings`. -/
def PACKET_DATA_SIZE : Nat := 64

/-- Constant `CHANNEL_BUFFER_SIZE` from `src/ping.rs`. -/
def CHANNEL_BUFFER_SIZE : Nat := 1024

/-- Embedding of pnet `util::sum_be_words`, with the running word index made
explicit: sums the big-endian 16-bit words of the buffer, skipping the word
whose index equals `skip`; a trailing odd byte contributes as the high byte
of a final word (and can never be skipped, matching pnet, which clamps the
skip index to the number of whole words). -/
def sumWordsSkip : List Nat → Nat → Nat → Nat
  | a :: b :: rest, i, skip =>
      (if i = skip then 0 else a * 256 + b) + sumWordsSkip rest (i + 1) skip
  | [a], _, _ => a * 256
  | [], _, _ => 0

/-- pnet `util::sum_be_words d skipword`: word summation starting at word
index 0. -/
def sum_be_words (d : List Nat) (skipword : Nat) : Nat := sumWordsSkip d 0 skipword

/-- Sum of all big-endian 16-bit words of a buffer, no word skipped (used to
state the verification side of the checksum invariant). -/
def sumWords : List Nat → Nat
  | a :: b :: rest => (a * 256 + b) + sumWords rest
  | [a] => a * 256
  | [] => 0

/-- The carry-folding loop of pnet `util::finalize_checksum`: while the sum
exceeds 16 bits, add the upper half into the lower half. -/
def foldCarry (s : Nat) : Nat :=
  if s < 65536 then s else foldCarry (s % 65536 + s / 65536)
termination_by s
decreasing_by omega

/-- pnet `util::checksum d skipword`: fold the skipped-word sum and take the
16-bit one's complement (`!sum as u16`, with `foldCarry` output below
`2^16` this is `65535 - sum`). -/
def pnet_checksum (d : List Nat) (skipword : Nat) : Nat :=
  65535 - foldCarry (sum_be_words d skipword)

/-- The folded 16-bit one's-complement sum of a whole buffer, checksum field
included (the quantity the checksum invariant speaks about). -/
def ones_sum (d : List Nat) : Nat := foldCarry (sumWords d)

/-- Store a 16-bit value big-endian at byte offsets `i`, `i+1`, as the pnet
`set_checksum` / `set_identifier` / `set_sequence_number` accessors do
(`(v >> 8) as u8` and `v as u8`). -/
def set_be16 (d : List Nat) (i : Nat) (v : Nat) : List Nat :=
  (d.set i (v / 256 % 256)).set (i + 1) (v % 256)

/-- Error taxonomy of the embedded engine.  `bufferTooSmall` models the
panic raised by the `expect` calls in the packet builders when the buffer
cannot hold the family's minimum header. -/
inductive PingError where
  | bufferTooSmall
  | ioError
  deriving DecidableEq

/-- Embedding of `make_icmp_ping_request` (`src/ping.rs`).
`MutableEchoRequestPacket::new` demands at least 8 bytes (type, code,
checksum, identifier, sequence number) and the `expect` panics before any
byte is written otherwise — modelled as the `bufferTooSmall` error with the
buffer returned unchanged.  On success the builder writes type `8`
(EchoRequest), identifier `0`, sequence number `0`, zeroes the checksum,
computes `pnet_checksum` over the whole buffer skipping word 1, and stores
it; the returned buffer is the mutated one. -/
def make_icmp_ping_request (data : List Nat) : List Nat × Option PingError :=
  if data.length < 8 then (data, some .bufferTooSmall)
  else
    let d0 := data.set 0 8
    let d1 := set_be16 d0 4 0
    let d2 := set_be16 d1 6 0
    let d3 := set_be16 d2 2 0
    (set_be16 d3 2 (pnet_checksum d3 1), none)

/-- Embedding of `make_icmpv6_ping_request` (`src/ping.rs`).
`MutableIcmpv6Packet::new` demands at least 4 bytes (type, code, checksum);
the builder writes type `128` (Icmpv6 EchoRequest), zeroes the checksum,
computes `pnet_checksum` skipping word 1 and stores it.  pnet offers no
identifier/sequence setters for icmpv6, so no further field is written. -/
def make_icmpv6_ping_request (data : List Nat) : List Nat × Option PingError :=
  if data.length < 4 then (data, some .bufferTooSmall)
  else
    let d0 := data.set 0 128
    let d1 := set_be16 d0 2 0
    (set_be16 d1 2 (pnet_checksum d1 1), none)

/-- Embedding of `PingStats` (`src/main.rs`): monotonically accumulated
counters.  `num_sent`, `num_received` are `u64`, `total_rtt` is `u128` in the
source; all arithmetic performed on them stays far below the respective
bounds, so they are embedded as `Nat`. -/
structure PingStats where
  num_sent : Nat
  num_received : Nat
  total_rtt : Nat
  deriving DecidableEq

/-- `PingStats::default()`: all counters zero. -/
def PingStats.default : PingStats := ⟨0, 0, 0⟩

/-- `PingStats::avg_rtt` (`src/main.rs`): integer division of `total_rtt` by
`num_received` when the latter is nonzero, else `0`. -/
def PingStats.avg_rtt (s : PingStats) : Nat :=
  if s.num_received ≠ 0 then s.total_rtt / s.num_received else 0

/-- `PingStats::total_percent_loss` (`src/main.rs`):
`1.0 - num_received as f64 / num_sent as f64`.  The `f64` arithmetic is
modelled exactly over `Rat` (for the counter magnitudes the claims quantify
over, the real-number value of the expression is this rational). -/
def PingStats.total_percent_loss (s : PingStats) : Rat :=
  1 - (s.num_received : Rat) / (s.num_sent : Rat)

/-- `PingStats::total_lost` (`src/main.rs`): `num_sent - num_received`
(`u64` subtraction, well defined only when `num_received ≤ num_sent`). -/
def PingStats.total_lost (s : PingStats) : Nat := s.num_sent - s.num_received

/-- Outcome of one reply wait, as the probe loop consumes it:
`next_with_timeout` returned `Ok(true)` with the measured round-trip time in
milliseconds, or `Ok(false)` (timeout). -/
inductive ReplyEvent where
  | received (rtt : Nat)
  | timedOut
  deriving DecidableEq

/-- `stats.num_sent += 1`, performed right after the send and before the
reply wait. -/
def record_sent (s : PingStats) : PingStats :=
  { s with num_sent := s.num_sent + 1 }

/-- The `if success` branch after the wait: on a reply, add the rtt and count
it received; on a timeout, change nothing further. -/
def record_reply (e : ReplyEvent) (s : PingStats) : PingStats :=
  match e with
  | .received rtt =>
      { s with total_rtt := s.total_rtt + rtt, num_received := s.num_received + 1 }
  | .timedOut => s

/-- Net effect of one probe cycle on the counters. -/
def cycle (e : ReplyEvent) (s : PingStats) : PingStats := record_reply e (record_sent s)

/-- The loop-top stop test of `start_pings`:
`packets_to_send.map(|c| stats.num_sent >= c).unwrap_or(false)`. -/
def stopCond (count : Option Nat) (s : PingStats) : Bool :=
  (count.map (fun c => decide (c ≤ s.num_sent))).getD false

/-- Opaque I/O error (`std::io::Error`), distinguished only by identity. -/
structure IoError where
  code : Nat
  deriving DecidableEq

/-- Modelled from the spec: the OS receive side behind pnet's
`TransportReceiver` (external library state not in `src/`).  Each field maps
a timeout to what the family-filtered receive path yields within it:
`Except.error` a transport fault, `Except.ok none` no reply before the
timeout, `Except.ok (some r)` a reply. -/
structure TransportReceiver where
  recv_icmp : Nat → Except IoError (Option Nat)
  recv_icmpv6 : Nat → Except IoError (Option Nat)

/-- Embedding of `PacketIter` (`src/ping.rs`): a two-variant tagged union
over the family-specific receive iterators, each carried as its abstract
receive behaviour. -/
inductive PacketIter where
  | V4 (it : Nat → Except IoError (Option Nat))
  | V6 (it : Nat → Except IoError (Option Nat))

/-- The underlying pnet iterator call `iter.next_with_timeout(t)` of the
variant held by a `PacketIter`. -/
def PacketIter.recv (p : PacketIter) (t : Nat) : Except IoError (Option Nat) :=
  match p with
  | .V4 it => it t
  | .V6 it => it t

/-- Embedding of `PacketIter::next_with_timeout` (`src/ping.rs`): both arms
map the pnet result through `|v| v.is_some()`, so a timeout (`Ok(None)`)
becomes `Ok(false)` and an I/O error passes through. -/
def PacketIter.next_with_timeout (p : PacketIter) (t : Nat) : Except IoError Bool :=
  match p with
  | .V4 it => (it t).map Option.isSome
  | .V6 it => (it t).map Option.isSome

/-- Whether a `PacketIter` is the v4 variant. -/
def PacketIter.is_v4 : PacketIter → Bool
  | .V4 _ => true
  | .V6 _ => false

/-- Whether a `PacketIter` is the v6 variant. -/
def PacketIter.is_v6 : PacketIter → Bool
  | .V4 _ => false
  | .V6 _ => true

/-- `std::net::IpAddr`: a two-variant family-tagged address, payload
opaque. -/
inductive IpAddr where
  | V4 (a : Nat)
  | V6 (a : Nat)
  deriving DecidableEq

/-- `IpAddr::is_ipv4`. -/
def IpAddr.is_ipv4 : IpAddr → Bool
  | .V4 _ => true
  | .V6 _ => false

/-- `IpAddr::is_ipv6`. -/
def IpAddr.is_ipv6 : IpAddr → Bool
  | .V4 _ => false
  | .V6 _ => true

/-- The protocol a transport channel is bound to
(`IpNextHeaderProtocols::Icmp` / `Icmpv6`). -/
inductive IpNextHeaderProtocol where
  | Icmp
  | Icmpv6
  deriving DecidableEq

/-- The configuration `create_channels` fixes for the session: bound
protocol, the applied time-to-live (none when not settable), and the kernel
buffer size passed to `transport_channel`. -/
structure ChannelConfig where
  protocol : IpNextHeaderProtocol
  ttl : Option Nat
  buffer_size : Nat
  deriving DecidableEq

/-- Embedding of `create_channels` (`src/ping.rs`), dispatch content: for a
v4 address bind `Layer4(Ipv4(Icmp))` and apply `set_ttl(ttl)`; for a v6
address bind `Layer4(Ipv6(Icmpv6))` and set no hop limit (pnet offers no
setter).  The raw-socket syscalls themselves are external I/O. -/
def create_channels (addr : IpAddr) (ttl : Nat) : ChannelConfig :=
  match addr with
  | .V4 _ => { protocol := .Icmp, ttl := some ttl, buffer_size := CHANNEL_BUFFER_SIZE }
  | .V6 _ => { protocol := .Icmpv6, ttl := none, buffer_size := CHANNEL_BUFFER_SIZE }

/-- Embedding of `packet_iter` (`src/ping.rs`): wrap the receiver in the
family-matched pnet iterator (`icmp_packet_iter` / `icmpv6_packet_iter`). -/
def packet_iter (addr : IpAddr) (r : TransportReceiver) : PacketIter :=
  match addr with
  | .V4 _ => .V4 r.recv_icmp
  | .V6 _ => .V6 r.recv_icmpv6

/-- Embedding of `send_ping` (`src/ping.rs`): build the family-matched echo
request in place, then hand it to `sender.send_to` (external I/O; the model
returns the buffer after the in-place build together with the builder's
failure, if any). -/
def send_ping (addr : IpAddr) (data : List Nat) : List Nat × Option PingError :=
  match addr with
  | .V4 _ => make_icmp_ping_request data
  | .V6 _ => make_icmpv6_ping_request data

/-- Observable actions of one probe cycle that the claims speak about: the
send, and the fixed inter-probe sleep (`sleep(Duration::from_millis(500))`)
at the end of the loop body. -/
inductive Action where
  | sent
  | slept (ms : Nat)
  deriving DecidableEq

/-- The mutable state `start_pings` threads through the loop: the reusable
packet buffer and the accumulated stats. -/
structure RunState where
  data : List Nat
  stats : PingStats
  deriving DecidableEq

/-- Embedding of the `start_pings` loop (`src/main.rs`) for executions whose
transport I/O succeeds: `outcomes i` is what the `i`-th reply wait yields,
`count` is `packets_to_send`, `fuel` bounds the number of loop iterations
inspected.  Result: `none` when the fuel ran out with the loop still
running, `some (.error e)` when a packet builder failed (the Rust panic),
and `some (.ok (trace, st))` when the loop broke at its stop test, with the
per-cycle action trace and the final state. -/
def start_pings (addr : IpAddr) (outcomes : Nat → ReplyEvent) (count : Option Nat) :
    Nat → Nat → RunState → Option (Except PingError (List Action × RunState))
  | 0, _, _ => none
  | fuel + 1, i, st =>
    if stopCond count st.stats then some (.ok ([], st))
    else
      match send_ping addr st.data with
      | (_, some e) => some (.error e)
      | (d1, none) =>
        match start_pings addr outcomes count fuel (i + 1) ⟨d1, cycle (outcomes i) st.stats⟩ with
        | none => none
        | some (.error e) => some (.error e)
        | some (.ok (tr, stFin)) => some (.ok (.sent :: .slept 500 :: tr, stFin))

/-- The action trace of `k` full probe cycles: each cycle is a send followed
by the fixed 500 ms sleep. -/
def cycle_trace : Nat → List Action
  | 0 => []
  | k + 1 => .sent :: .slept 500 :: cycle_trace k

/-- The effect of `k` consecutive probe cycles on the counters, the first
consuming outcome index `i`. -/
def iterate_cycles (outcomes : Nat → ReplyEvent) : Nat → Nat → PingStats → PingStats
  | _, 0, s => s
  | i, k + 1, s => iterate_cycles outcomes (i + 1) k (cycle (outcomes i) s)

/-- Final stats of a terminated run, if any. -/
def run_final_stats (r : Option (Except PingError (List Action × RunState))) :
    Option PingStats :=
  match r with
  | some (.ok (_, st)) => some st.stats
  | _ => none

/-- Action trace of a terminated run, if any. -/
def run_trace (r : Option (Except PingError (List Action × RunState))) :
    Option (List Action) :=
  match r with
  | some (.ok (tr, _)) => some tr
  | _ => none

/-- The counter states the loop holds at its top: the initial state, and the
result of any completed cycle from a reachable state. -/
inductive ReachableTop : PingStats → Prop
  | init : ReachableTop PingStats.default
  | step (s : PingStats) (e : ReplyEvent) : ReachableTop s → ReachableTop (cycle e s)

/-- Every counter state the loop ever holds: a loop-top state or its
post-send intermediate (`num_sent` already incremented, the reply of that
cycle not yet recorded). -/
def ReachableState (s : PingStats) : Prop :=
  ReachableTop s ∨ ∃ s0, ReachableTop s0 ∧ s = record_sent s0

/-- The reply-wait outcomes of the scenario `[Received(10ms), TimedOut,
Received(30ms)]`. -/
def scenario3 : Nat → ReplyEvent
  | 0 => .received 10
  | 1 => .timedOut
  | _ => .received 30

theorem foldCarry_lt (s : Nat) : foldCarry s < 65536 := by
  induction s using Nat.strong_induction_on with
  | _ s ih =>
    rw [foldCarry]
    split
    · omega
    · exact ih _ (by omega)

theorem foldCarry_le (s : Nat) : foldCarry s ≤ s := by
  induction s using Nat.strong_induction_on with
  | _ s ih =>
    rw [foldCarry]
    split
    · omega
    · have := ih (s % 65536 + s / 65536) (by omega)
      omega

theorem foldCarry_mod (s : Nat) : foldCarry s % 65535 = s % 65535 := by
  induction s using Nat.strong_induction_on with
  | _ s ih =>
    rw [foldCarry]
    split
    · rfl
    · have := ih (s % 65536 + s / 65536) (by omega)
      omega

theorem foldCarry_pos (s : Nat) (hs : 0 < s) : 0 < foldCarry s := by
  induction s using Nat.strong_induction_on with
  | _ s ih =>
    rw [foldCarry]
    split
    · omega
    · exact ih _ (by omega) (by omega)

theorem sumWordsSkip_gt : ∀ (l : List Nat) (i skip : Nat), skip < i →
    sumWordsSkip l i skip = sumWords l
  | a :: b :: rest, i, skip, h => by
    have hne : ¬ (i = skip) := by omega
    rw [sumWordsSkip, sumWords, if_neg hne, sumWordsSkip_gt rest (i + 1) skip (by omega)]
  | [a], _, _, _ => rfl
  | [], _, _, _ => rfl

/-- Core checksum correctness: writing the pnet checksum (computed with the
checksum word zeroed and skipped) back into the checksum word makes the
folded one's-complement sum of the whole buffer equal `0xFFFF`, the
one's-complement representation of zero. -/
theorem checksum_core (a b : Nat) (rest : List Nat) (ha : 0 < a) :
    ones_sum (a :: b :: (pnet_checksum (a :: b :: 0 :: 0 :: rest) 1 / 256 % 256) ::
      (pnet_checksum (a :: b :: 0 :: 0 :: rest) 1 % 256) :: rest) = 65535 := by
  have hSval : sum_be_words (a :: b :: 0 :: 0 :: rest) 1 = a * 256 + b + sumWords rest := by
    unfold sum_be_words
    rw [sumWordsSkip, sumWordsSkip, sumWordsSkip_gt rest 2 1 (by omega)]
    simp
  have hF_lt := foldCarry_lt (sum_be_words (a :: b :: 0 :: 0 :: rest) 1)
  have hF_le := foldCarry_le (sum_be_words (a :: b :: 0 :: 0 :: rest) 1)
  have hF_mod := foldCarry_mod (sum_be_words (a :: b :: 0 :: 0 :: rest) 1)
  have hF_pos : 0 < foldCarry (sum_be_words (a :: b :: 0 :: 0 :: rest) 1) :=
    foldCarry_pos _ (by omega)
  have hcs_val : pnet_checksum (a :: b :: 0 :: 0 :: rest) 1
      = 65535 - foldCarry (sum_be_words (a :: b :: 0 :: 0 :: rest) 1) := rfl
  have hcs_le : pnet_checksum (a :: b :: 0 :: 0 :: rest) 1 ≤ 65535 := by omega
  have hword : (pnet_checksum (a :: b :: 0 :: 0 :: rest) 1 / 256 % 256) * 256 +
      pnet_checksum (a :: b :: 0 :: 0 :: rest) 1 % 256
      = pnet_checksum (a :: b :: 0 :: 0 :: rest) 1 := by omega
  have htot : sumWords (a :: b :: (pnet_checksum (a :: b :: 0 :: 0 :: rest) 1 / 256 % 256) ::
      (pnet_checksum (a :: b :: 0 :: 0 :: rest) 1 % 256) :: rest)
      = sum_be_words (a :: b :: 0 :: 0 :: rest) 1 +
        pnet_checksum (a :: b :: 0 :: 0 :: rest) 1 := by
    rw [sumWords, sumWords, hword, hSval]
    ring
  unfold ones_sum
  rw [htot]
  have h1 : (sum_be_words (a :: b :: 0 :: 0 :: rest) 1 +
      pnet_checksum (a :: b :: 0 :: 0 :: rest) 1) % 65535 = 0 := by omega
  have h2 : 0 < sum_be_words (a :: b :: 0 :: 0 :: rest) 1 +
      pnet_checksum (a :: b :: 0 :: 0 :: rest) 1 := by omega
  have h3 := foldCarry_lt (sum_be_words (a :: b :: 0 :: 0 :: rest) 1 +
      pnet_checksum (a :: b :: 0 :: 0 :: rest) 1)
  have h4 := foldCarry_mod (sum_be_words (a :: b :: 0 :: 0 :: rest) 1 +
      pnet_checksum (a :: b :: 0 :: 0 :: rest) 1)
  have h5 := foldCarry_pos (sum_be_words (a :: b :: 0 :: 0 :: rest) 1 +
      pnet_checksum (a :: b :: 0 :: 0 :: rest) 1) h2
  omega

theorem make4_shape (a b c d e f g h : Nat) (rest : List Nat) :
    make_icmp_ping_request (a :: b :: c :: d :: e :: f :: g :: h :: rest)
      = (8 :: b :: (pnet_checksum (8 :: b :: 0 :: 0 :: 0 :: 0 :: 0 :: 0 :: rest) 1 / 256 % 256)
          :: (pnet_checksum (8 :: b :: 0 :: 0 :: 0 :: 0 :: 0 :: 0 :: rest) 1 % 256)
          :: 0 :: 0 :: 0 :: 0 :: rest, none) := by
  rw [make_icmp_ping_request, if_neg (by simp only [List.length_cons]; omega)]
  rfl

theorem make6_shape (a b c d : Nat) (rest : List Nat) :
    make_icmpv6_ping_request (a :: b :: c :: d :: rest)
      = (128 :: b :: (pnet_checksum (128 :: b :: 0 :: 0 :: rest) 1 / 256 % 256)
          :: (pnet_checksum (128 :: b :: 0 :: 0 :: rest) 1 % 256) :: rest, none) := by
  rw [make_icmpv6_ping_request, if_neg (by simp only [List.length_cons]; omega)]
  rfl

/-- C1: for every packet built by the packet builder (v4 via
`make_icmp_ping_request` or v6 via `make_icmpv6_ping_request`) from a
sufficiently large buffer, the folded 16-bit one's-complement sum of the full
packet bytes, with the written checksum field included in the sum, is
`0xFFFF` — the one's-complement representation of zero — equivalently its
16-bit complement (the RFC 1071 verification residual) is `0`. -/
theorem built_packet_checksum_zero (data : List Nat) :
    (8 ≤ data.length →
      (make_icmp_ping_request data).2 = none ∧
      ones_sum (make_icmp_ping_request data).1 = 65535 ∧
      65535 - ones_sum (make_icmp_ping_request data).1 = 0) ∧
    (4 ≤ data.length →
      (make_icmpv6_ping_request data).2 = none ∧
      ones_sum (make_icmpv6_ping_request data).1 = 65535 ∧
      65535 - ones_sum (make_icmpv6_ping_request data).1 = 0) := by
  constructor
  · intro hlen
    obtain _ | ⟨a, _ | ⟨b, _ | ⟨c, _ | ⟨d, _ | ⟨e, _ | ⟨f, _ | ⟨g, _ | ⟨h, rest⟩⟩⟩⟩⟩⟩⟩⟩ := data
    all_goals simp only [List.length_cons, List.length_nil] at hlen
    all_goals try omega
    rw [make4_shape]
    have hc := checksum_core 8 b (0 :: 0 :: 0 :: 0 :: rest) (by omega)
    refine ⟨rfl, hc, ?_⟩
    dsimp only
    omega
  · intro hlen
    obtain _ | ⟨a, _ | ⟨b, _ | ⟨c, _ | ⟨d, rest⟩⟩⟩⟩ := data
    all_goals simp only [List.length_cons, List.length_nil] at hlen
    all_goals try omega
    rw [make6_shape]
    have hc := checksum_core 128 b rest (by omega)
    refine ⟨rfl, hc, ?_⟩
    dsimp only
    omega

theorem built_packet_checksum_zero_witness :
    ones_sum (make_icmp_ping_request (List.replicate 8 0)).1 = 65535 ∧
    ones_sum (make_icmpv6_ping_request (List.replicate 4 0)).1 = 65535 :=
  ⟨((built_packet_checksum_zero (List.replicate 8 0)).1 (by decide)).2.1,
   ((built_packet_checksum_zero (List.replicate 4 0)).2 (by decide)).2.1⟩

/-- C2: building a packet (v4 or v6) into a buffer shorter than the family's
minimum header size (8 bytes for a v4 echo request, 4 for v6) fails with the
`bufferTooSmall` error — the embedding of the `expect` panic, raised by the
packet constructor before any byte is written — and returns the buffer
unchanged: no partial checksum is written into it. -/
theorem buffer_too_small_fails_unchanged (data : List Nat) :
    (data.length < 8 →
      make_icmp_ping_request data = (data, some PingError.bufferTooSmall)) ∧
    (data.length < 4 →
      make_icmpv6_ping_request data = (data, some PingError.bufferTooSmall)) := by
  constructor
  · intro h
    rw [make_icmp_ping_request, if_pos h]
  · intro h
    rw [make_icmpv6_ping_request, if_pos h]

theorem buffer_too_small_fails_unchanged_witness :
    make_icmp_ping_request [0, 0, 0] = ([0, 0, 0], some PingError.bufferTooSmall) ∧
    make_icmpv6_ping_request [0, 0, 0] = ([0, 0, 0], some PingError.bufferTooSmall) :=
  ⟨(buffer_too_small_fails_unchanged [0, 0, 0]).1 (by decide),
   (buffer_too_small_fails_unchanged [0, 0, 0]).2 (by decide)⟩

/-- C3: for all non-negative integer counter values, `avg_rtt` equals 0 when
`num_received = 0`, and equals `total_rtt / num_received` otherwise. -/
theorem avg_rtt_cases (s : PingStats) :
    s.avg_rtt = if s.num_received = 0 then 0 else s.total_rtt / s.num_received := by
  unfold PingStats.avg_rtt
  by_cases h : s.num_received = 0 <;> simp [h]

theorem cycle_num_sent (e : ReplyEvent) (s : PingStats) :
    (cycle e s).num_sent = s.num_sent + 1 := by
  cases e <;> rfl

theorem make4_length (data : List Nat) (h : 8 ≤ data.length) :
    (make_icmp_ping_request data).2 = none ∧
    (make_icmp_ping_request data).1.length = data.length := by
  rw [make_icmp_ping_request, if_neg (by omega)]
  exact ⟨rfl, by simp [set_be16]⟩

theorem make6_length (data : List Nat) (h : 4 ≤ data.length) :
    (make_icmpv6_ping_request data).2 = none ∧
    (make_icmpv6_ping_request data).1.length = data.length := by
  rw [make_icmpv6_ping_request, if_neg (by omega)]
  exact ⟨rfl, by simp [set_be16]⟩

theorem send_ping_ok (addr : IpAddr) (data : List Nat) (h : 8 ≤ data.length) :
    (send_ping addr data).2 = none ∧ (send_ping addr data).1.length = data.length := by
  cases addr with
  | V4 a => simpa [send_ping] using make4_length data h
  | V6 a => simpa [send_ping] using make6_length data (by omega)

/-- Termination shape of the embedded loop: with `count = some c`, a
64-byte buffer and `k = c - num_sent` cycles still owed, any run with more
than `k` fuel breaks at the stop test after exactly `k` further cycles,
producing their trace and their accumulated stats. -/
theorem run_terminates (addr : IpAddr) (outcomes : Nat → ReplyEvent) (c : Nat) :
    ∀ (k fuel i : Nat) (st : RunState),
      st.data.length = PACKET_DATA_SIZE →
      st.stats.num_sent + k = c →
      k < fuel →
      ∃ d1, start_pings addr outcomes (some c) fuel i st
          = some (.ok (cycle_trace k, ⟨d1, iterate_cycles outcomes i k st.stats⟩))
        ∧ d1.length = PACKET_DATA_SIZE := by
  intro k
  induction k with
  | zero =>
    intro fuel i st hlen hsent hfuel
    obtain ⟨fuel, rfl⟩ : ∃ f, fuel = f + 1 := ⟨fuel - 1, by omega⟩
    refine ⟨st.data, ?_, hlen⟩
    rw [start_pings, if_pos (by simp [stopCond]; omega)]
    rfl
  | succ k ih =>
    intro fuel i st hlen hsent hfuel
    obtain ⟨fuel, rfl⟩ : ∃ f, fuel = f + 1 := ⟨fuel - 1, by omega⟩
    rw [start_pings, if_neg (by simp [stopCond]; omega)]
    have hsp := send_ping_ok addr st.data (by rw [hlen]; decide)
    obtain ⟨d1, hd1⟩ : ∃ d1, send_ping addr st.data = (d1, none) :=
      ⟨(send_ping addr st.data).1, by rw [← hsp.1]⟩
    rw [hd1]
    have hlen1 : d1.length = PACKET_DATA_SIZE := by
      have h2 := hsp.2
      rw [hd1] at h2
      simpa [hlen] using h2
    have hsent1 : (cycle (outcomes i) st.stats).num_sent + k = c := by
      rw [cycle_num_sent]
      omega
    obtain ⟨d2, hrun, hd2⟩ :=
      ih fuel (i + 1) ⟨d1, cycle (outcomes i) st.stats⟩ hlen1 hsent1 (by omega)
    refine ⟨d2, ?_, hd2⟩
    dsimp only
    rw [hrun]
    rfl

theorem iterate_num_sent (outcomes : Nat → ReplyEvent) :
    ∀ (k i : Nat) (s : PingStats),
      (iterate_cycles outcomes i k s).num_sent = s.num_sent + k
  | 0, _, _ => rfl
  | k + 1, i, s => by
    rw [iterate_cycles, iterate_num_sent outcomes k (i + 1) (cycle (outcomes i) s),
      cycle_num_sent]
    omega

/-- C4: the aggregator's loss ratio is `1 - num_received/num_sent`, and the
probe loop run on the outcome sequence `[Received(10ms), TimedOut,
Received(30ms)]` with `count = 3` terminates reporting `num_sent = 3`,
`num_received = 2`, `total_rtt = 40`, `avg_rtt = 20`, and a loss ratio of
`1/3`, within `0.001` of `0.333`. -/
theorem loss_formula_and_scenario :
    (∀ s : PingStats,
      s.total_percent_loss = 1 - (s.num_received : Rat) / (s.num_sent : Rat))
    ∧ run_final_stats (start_pings (.V4 0) scenario3 (some 3) 4 0
        ⟨List.replicate PACKET_DATA_SIZE 0, PingStats.default⟩) = some ⟨3, 2, 40⟩
    ∧ PingStats.avg_rtt ⟨3, 2, 40⟩ = 20
    ∧ PingStats.total_percent_loss ⟨3, 2, 40⟩ = 1 / 3
    ∧ |PingStats.total_percent_loss ⟨3, 2, 40⟩ - 333 / 1000| ≤ 1 / 1000 := by
  refine ⟨fun s => rfl, by decide, by decide, ?_, ?_⟩
  · norm_num [PingStats.total_percent_loss]
  · rw [show PingStats.total_percent_loss ⟨3, 2, 40⟩ = 1 / 3 by
      norm_num [PingStats.total_percent_loss]]
    rw [abs_le]
    norm_num

/-- C5: started with `packets_to_send = some 3` from fresh counters, the
loop executes exactly 3 send cycles — the trace holds exactly 3 sends, each
cycle incrementing `num_sent` by exactly 1 — and then stops with
`num_sent = 3`, whatever the individual wait outcomes are. -/
theorem probe_count_three_exact (addr : IpAddr) (outcomes : Nat → ReplyEvent)
    (fuel : Nat) (hfuel : 4 ≤ fuel) :
    (∃ d1, start_pings addr outcomes (some 3) fuel 0
        ⟨List.replicate PACKET_DATA_SIZE 0, PingStats.default⟩
        = some (.ok (cycle_trace 3, ⟨d1, iterate_cycles outcomes 0 3 PingStats.default⟩)))
    ∧ (cycle_trace 3).count .sent = 3
    ∧ (iterate_cycles outcomes 0 3 PingStats.default).num_sent = 3
    ∧ (∀ e s, (cycle e s).num_sent = s.num_sent + 1) := by
  refine ⟨?_, by decide, ?_, cycle_num_sent⟩
  · obtain ⟨d1, hrun, _⟩ := run_terminates addr outcomes 3 3 fuel 0
      ⟨List.replicate PACKET_DATA_SIZE 0, PingStats.default⟩ (by simp) rfl (by omega)
    exact ⟨d1, hrun⟩
  · rw [iterate_num_sent]
    rfl

theorem probe_count_three_exact_witness :
    ∃ d1, start_pings (IpAddr.V4 0) (fun _ => ReplyEvent.timedOut) (some 3) 4 0
        ⟨List.replicate PACKET_DATA_SIZE 0, PingStats.default⟩
        = some (.ok (cycle_trace 3,
          ⟨d1, iterate_cycles (fun _ => ReplyEvent.timedOut) 0 3 PingStats.default⟩)) :=
  (probe_count_three_exact (IpAddr.V4 0) (fun _ => ReplyEvent.timedOut) 4 (by omega)).1

theorem iterate_timeouts_received :
    ∀ (k i : Nat) (s : PingStats),
      (iterate_cycles (fun _ => ReplyEvent.timedOut) i k s).num_received = s.num_received
  | 0, _, _ => rfl
  | k + 1, i, s => by
    rw [iterate_cycles, iterate_timeouts_received k (i + 1) (cycle ReplyEvent.timedOut s)]
    rfl

/-- C6: a timeout is not an error.  For either family variant,
`next_with_timeout` returns `Ok false` (the timed-out outcome) when the
underlying receive yields no reply within the timeout and `Ok true` when it
yields a reply; it returns an I/O error exactly when the underlying
transport faulted.  The probe loop records a timed-out cycle as a lost probe
(`num_sent` grows, `num_received` does not) and continues: run with every
wait timing out and `count = 3`, it still completes all 3 cycles and stops
with 3 sent, 0 received. -/
theorem timeout_is_not_error (p : PacketIter) (t : Nat) :
    (p.recv t = .ok none → p.next_with_timeout t = .ok false)
    ∧ (∀ x, p.recv t = .ok (some x) → p.next_with_timeout t = .ok true)
    ∧ (∀ e, p.next_with_timeout t = .error e ↔ p.recv t = .error e)
    ∧ (∀ s, (cycle .timedOut s).num_sent = s.num_sent + 1
        ∧ (cycle .timedOut s).num_received = s.num_received)
    ∧ run_final_stats (start_pings (.V4 0) (fun _ => .timedOut) (some 3) 4 0
        ⟨List.replicate PACKET_DATA_SIZE 0, PingStats.default⟩) = some ⟨3, 0, 0⟩ := by
  refine ⟨?_, ?_, ?_, fun s => ⟨rfl, rfl⟩, ?_⟩
  · intro h
    cases p with
    | V4 it => rw [PacketIter.next_with_timeout, show it t = .ok none from h]; rfl
    | V6 it => rw [PacketIter.next_with_timeout, show it t = .ok none from h]; rfl
  · intro x h
    cases p with
    | V4 it => rw [PacketIter.next_with_timeout, show it t = .ok (some x) from h]; rfl
    | V6 it => rw [PacketIter.next_with_timeout, show it t = .ok (some x) from h]; rfl
  · intro e
    cases p with
    | V4 it =>
      cases h : it t <;>
        simp [PacketIter.next_with_timeout, PacketIter.recv, h, Except.map]
    | V6 it =>
      cases h : it t <;>
        simp [PacketIter.next_with_timeout, PacketIter.recv, h, Except.map]
  · obtain ⟨d1, hrun, _⟩ := run_terminates (.V4 0) (fun _ => .timedOut) 3 3 4 0
      ⟨List.replicate PACKET_DATA_SIZE 0, PingStats.default⟩ (by simp) rfl (by omega)
    rw [hrun]
    show some (iterate_cycles (fun _ => ReplyEvent.timedOut) 0 3 PingStats.default) = _
    have h1 := iterate_num_sent (fun _ => ReplyEvent.timedOut) 3 0 PingStats.default
    have h2 := iterate_timeouts_received 3 0 PingStats.default
    rfl

theorem timeout_is_not_error_witness :
    (PacketIter.V4 (fun _ => Except.ok none)).next_with_timeout 1 = .ok false :=
  (timeout_is_not_error (PacketIter.V4 (fun _ => Except.ok none)) 1).1 rfl

/-- C7: family dispatch is consistent.  For every destination address, the
channel is bound to the ICMPv4 protocol, `packet_iter` returns the v4
iterator variant, and `send_ping` invokes the v4 packet builder exactly when
the address is v4; symmetrically the ICMPv6 protocol, the v6 iterator
variant and the v6 builder are used exactly when the address is v6 — and
the time-to-live is applied exactly on the v4 path. -/
theorem family_dispatch_consistent (addr : IpAddr) (ttl : Nat)
    (r : TransportReceiver) (data : List Nat) :
    ((create_channels addr ttl).protocol = .Icmp ↔ addr.is_ipv4 = true)
    ∧ ((create_channels addr ttl).protocol = .Icmpv6 ↔ addr.is_ipv6 = true)
    ∧ ((packet_iter addr r).is_v4 = addr.is_ipv4)
    ∧ ((packet_iter addr r).is_v6 = addr.is_ipv6)
    ∧ (addr.is_ipv4 = true → send_ping addr data = make_icmp_ping_request data)
    ∧ (addr.is_ipv6 = true → send_ping addr data = make_icmpv6_ping_request data)
    ∧ ((create_channels addr ttl).ttl = some ttl ↔ addr.is_ipv4 = true) := by
  cases addr <;>
    simp [create_channels, packet_iter, send_ping, IpAddr.is_ipv4, IpAddr.is_ipv6,
      PacketIter.is_v4, PacketIter.is_v6]

theorem family_dispatch_consistent_witness :
    send_ping (IpAddr.V4 7) (List.replicate 8 0) = make_icmp_ping_request (List.replicate 8 0)
    ∧ (packet_iter (IpAddr.V6 7) ⟨fun _ => .ok none, fun _ => .ok none⟩).is_v6 = true :=
  ⟨(family_dispatch_consistent (IpAddr.V4 7) 64 ⟨fun _ => .ok none, fun _ => .ok none⟩
      (List.replicate 8 0)).2.2.2.2.1 rfl,
   by
    rw [(family_dispatch_consistent (IpAddr.V6 7) 64 ⟨fun _ => .ok none, fun _ => .ok none⟩
      (List.replicate 8 0)).2.2.2.1]
    rfl⟩

/-- C8 counterexample: with `count = 1`, the single cycle makes the stop
condition true, yet the loop body still performs its unconditional trailing
sleep — the trace is `[sent, slept 500]`, its last action the 500 ms sleep —
so a sleep does occur after the stop condition is met and before the loop
stops, contradicting the claim that none occurs then. -/
theorem final_cycle_still_sleeps :
    run_trace (start_pings (.V4 0) (fun _ => .timedOut) (some 1) 2 0
        ⟨List.replicate PACKET_DATA_SIZE 0, PingStats.default⟩)
      = some [Action.sent, Action.slept 500]
    ∧ stopCond (some 1) (cycle .timedOut PingStats.default) = true
    ∧ [Action.sent, Action.slept 500].getLast? = some (Action.slept 500) :=
  ⟨by decide, by decide, by decide⟩

theorem cycle_trace_succ : ∀ c, cycle_trace (c + 1)
    = cycle_trace c ++ [Action.sent, Action.slept 500]
  | 0 => rfl
  | c + 1 => by
    show Action.sent :: Action.slept 500 :: cycle_trace (c + 1)
        = (Action.sent :: Action.slept 500 :: cycle_trace c) ++ [Action.sent, Action.slept 500]
    rw [cycle_trace_succ c]
    rfl

theorem cycle_trace_last (c : Nat) (hc : 0 < c) :
    (cycle_trace c).getLast? = some (Action.slept 500) := by
  obtain ⟨c, rfl⟩ : ∃ k, c = k + 1 := ⟨c - 1, by omega⟩
  rw [cycle_trace_succ,
    show cycle_trace c ++ [Action.sent, Action.slept 500]
      = (cycle_trace c ++ [Action.sent]) ++ [Action.slept 500] by simp]
  exact List.getLast?_concat _

/-- C8 amended: the loop sleeps the fixed 500 ms inter-probe interval at the
end of every executed cycle — including the final one.  The stop test runs
at the top of the loop only, so when the probe count is reached the loop
still sleeps once after the last cycle before it observes the stop condition
and exits: a terminated run's trace is exactly `k` blocks `[sent,
slept 500]`, and (when at least one cycle ran) ends with the sleep. -/
theorem sleep_ends_every_cycle (addr : IpAddr) (outcomes : Nat → ReplyEvent)
    (c fuel : Nat) (hfuel : c < fuel) :
    run_trace (start_pings addr outcomes (some c) fuel 0
        ⟨List.replicate PACKET_DATA_SIZE 0, PingStats.default⟩) = some (cycle_trace c)
    ∧ (0 < c → (cycle_trace c).getLast? = some (Action.slept 500)) := by
  obtain ⟨d1, hrun, _⟩ := run_terminates addr outcomes c c fuel 0
    ⟨List.replicate PACKET_DATA_SIZE 0, PingStats.default⟩ (by simp)
    (by show 0 + c = c; omega) hfuel
  exact ⟨by rw [hrun]; rfl, cycle_trace_last c⟩

theorem sleep_ends_every_cycle_witness :
    run_trace (start_pings (IpAddr.V4 0) (fun _ => ReplyEvent.timedOut) (some 1) 2 0
        ⟨List.replicate PACKET_DATA_SIZE 0, PingStats.default⟩) = some (cycle_trace 1)
    ∧ (0 < 1 → (cycle_trace 1).getLast? = some (Action.slept 500)) :=
  sleep_ends_every_cycle (IpAddr.V4 0) (fun _ => ReplyEvent.timedOut) 1 2 (by omega)

theorem reachable_top_le (s : PingStats) (h : ReachableTop s) :
    s.num_received ≤ s.num_sent := by
  induction h with
  | init => exact Nat.le_refl 0
  | step s e _ ih =>
    cases e <;> simp only [cycle, record_sent, record_reply] <;> omega

theorem run_preserves_reachable (addr : IpAddr) (outcomes : Nat → ReplyEvent)
    (count : Option Nat) :
    ∀ (fuel i : Nat) (st : RunState) (tr : List Action) (stFin : RunState),
      ReachableTop st.stats →
      start_pings addr outcomes count fuel i st = some (Except.ok (tr, stFin)) →
      ReachableTop stFin.stats := by
  intro fuel
  induction fuel with
  | zero =>
    intro i st tr stFin h hrun
    rw [start_pings] at hrun
    cases hrun
  | succ fuel ih =>
    intro i st tr stFin h hrun
    rw [start_pings] at hrun
    by_cases hstop : stopCond count st.stats
    · rw [if_pos hstop] at hrun
      have hst : st = stFin := by
        simp only [Option.some.injEq, Except.ok.injEq, Prod.mk.injEq] at hrun
        exact hrun.2
      exact hst ▸ h
    · rw [if_neg hstop] at hrun
      cases hsp : send_ping addr st.data with
      | mk d1 err =>
        rw [hsp] at hrun
        cases err with
        | some e => simp at hrun
        | none =>
          dsimp only at hrun
          cases hrec : start_pings addr outcomes count fuel (i + 1)
              ⟨d1, cycle (outcomes i) st.stats⟩ with
          | none => rw [hrec] at hrun; cases hrun
          | some r =>
            rw [hrec] at hrun
            cases r with
            | error e => simp at hrun
            | ok p =>
              obtain ⟨tr1, st1⟩ := p
              have hst : st1 = stFin := by
                dsimp only at hrun
                simp only [Option.some.injEq, Except.ok.injEq, Prod.mk.injEq] at hrun
                exact hrun.2
              exact hst ▸ ih (i + 1) ⟨d1, cycle (outcomes i) st.stats⟩ tr1 st1
                (ReachableTop.step st.stats (outcomes i) h) hrec

/-- C9: in every counter state the probe loop can hold — any loop-top state
and any post-send intermediate — `num_received ≤ num_sent` (the send
increment precedes the wait that may increment `num_received`), so
`total_lost = num_sent - num_received` never underflows
(`num_received + total_lost` recovers `num_sent` exactly); and the loop
relation preserves loop-top reachability, so every state a terminated run
reports satisfies the invariant. -/
theorem stats_never_underflow :
    (∀ s, ReachableState s →
      s.num_received ≤ s.num_sent ∧ s.num_received + s.total_lost = s.num_sent)
    ∧ (∀ (addr : IpAddr) (outcomes : Nat → ReplyEvent) (count : Option Nat)
        (fuel i : Nat) (st : RunState) (tr : List Action) (stFin : RunState),
        ReachableTop st.stats →
        start_pings addr outcomes count fuel i st = some (Except.ok (tr, stFin)) →
        stFin.stats.num_received ≤ stFin.stats.num_sent) := by
  constructor
  · intro s hs
    have hle : s.num_received ≤ s.num_sent := by
      rcases hs with h | ⟨s0, h0, rfl⟩
      · exact reachable_top_le s h
      · have := reachable_top_le s0 h0
        simp only [record_sent]
        omega
    exact ⟨hle, by unfold PingStats.total_lost; omega⟩
  · intro addr outcomes count fuel i st tr stFin h hrun
    exact reachable_top_le _ (run_preserves_reachable addr outcomes count fuel i st tr stFin h hrun)

theorem stats_never_underflow_witness :
    (cycle (ReplyEvent.received 7) PingStats.default).num_received
      ≤ (cycle (ReplyEvent.received 7) PingStats.default).num_sent :=
  (stats_never_underflow.1 (cycle (ReplyEvent.received 7) PingStats.default)
    (Or.inl (ReachableTop.step PingStats.default (ReplyEvent.received 7)
      ReachableTop.init))).1

theorem run_no_builder_failure (addr : IpAddr) (outcomes : Nat → ReplyEvent)
    (count : Option Nat) :
    ∀ (fuel i : Nat) (st : RunState) (e : PingError),
      st.data.length = PACKET_DATA_SIZE →
      start_pings addr outcomes count fuel i st ≠ some (Except.error e) := by
  intro fuel
  induction fuel with
  | zero =>
    intro i st e hlen hrun
    rw [start_pings] at hrun
    cases hrun
  | succ fuel ih =>
    intro i st e hlen hrun
    rw [start_pings] at hrun
    by_cases hstop : stopCond count st.stats
    · rw [if_pos hstop] at hrun
      simp at hrun
    · rw [if_neg hstop] at hrun
      have hsp := send_ping_ok addr st.data (by rw [hlen]; decide)
      obtain ⟨d1, hd1⟩ : ∃ d1, send_ping addr st.data = (d1, none) :=
        ⟨(send_ping addr st.data).1, by rw [← hsp.1]⟩
      rw [hd1] at hrun
      dsimp only at hrun
      have hlen1 : d1.length = PACKET_DATA_SIZE := by
        have h2 := hsp.2
        rw [hd1] at h2
        simpa [hlen] using h2
      cases hrec : start_pings addr outcomes count fuel (i + 1)
          ⟨d1, cycle (outcomes i) st.stats⟩ with
      | none => rw [hrec] at hrun; cases hrun
      | some r =>
        rw [hrec] at hrun
        cases r with
        | error e1 =>
          exact ih (i + 1) ⟨d1, cycle (outcomes i) st.stats⟩ e1 hlen1 hrec
        | ok p =>
          obtain ⟨tr1, st1⟩ := p
          dsimp only at hrun
          simp at hrun

/-- C10: in the program's own use the buffer-too-small branch is dead:
`PACKET_DATA_SIZE = 64` covers both families' minimum header sizes (8 for a
v4 echo request, 4 for v6), a 64-byte buffer makes `send_ping` build without
failure and preserves the buffer length, and hence a run started from the
loop's fixed `[0; PACKET_DATA_SIZE]` buffer — or any 64-byte buffer — can
never abort through the builders' panic branch. -/
theorem packet_buffer_always_sufficient :
    (8 ≤ PACKET_DATA_SIZE ∧ 4 ≤ PACKET_DATA_SIZE)
    ∧ (∀ (addr : IpAddr) (data : List Nat), data.length = PACKET_DATA_SIZE →
        (send_ping addr data).2 = none
        ∧ (send_ping addr data).1.length = PACKET_DATA_SIZE)
    ∧ (∀ (addr : IpAddr) (outcomes : Nat → ReplyEvent) (count : Option Nat)
        (fuel i : Nat) (st : RunState) (e : PingError),
        st.data.length = PACKET_DATA_SIZE →
        start_pings addr outcomes count fuel i st ≠ some (Except.error e)) := by
  refine ⟨⟨by decide, by decide⟩, ?_, ?_⟩
  · intro addr data hlen
    have := send_ping_ok addr data (by rw [hlen]; decide)
    exact ⟨this.1, by rw [this.2, hlen]⟩
  · intro addr outcomes count fuel i st e hlen
    exact run_no_builder_failure addr outcomes count fuel i st e hlen

theorem packet_buffer_always_sufficient_witness :
    (send_ping (IpAddr.V4 0) (List.replicate PACKET_DATA_SIZE 0)).2 = none ∧
    (send_ping (IpAddr.V6 0) (List.replicate PACKET_DATA_SIZE 0)).2 = none :=
  ⟨(packet_buffer_always_sufficient.2.1 (IpAddr.V4 0)
      (List.replicate PACKET_DATA_SIZE 0) (by simp)).1,
   (packet_buffer_always_sufficient.2.1 (IpAddr.V6 0)
      (List.replicate PACKET_DATA_SIZE 0) (by simp)).1⟩

end Ping
